import Mathlib

/-!
Shallow embedding of src/wenhua_auto.py (class WenhuaAutoScreenshot), the
automation script that drives the Wenhua trading application through
simulated keystrokes, captures full-screen chart screenshots for a list of
futures contracts over three chart periods, and assembles the captured
images into an HTML document.

Effectful primitives (pyautogui key presses and text input, time.sleep,
ImageGrab.grab, the remote spreadsheet fetch, cache reads and writes, and
logging calls) are modelled as an explicit event trace of type List Ev.
Fallible library calls are modelled by explicit failure oracles: an
Option Nat oracle names the index of the fallible operation inside a
try-block that raises (none meaning the block succeeds), mirroring the
Python try/except structure.  The self.running flag that the ESC-key
callback clears asynchronously is modelled by an optional cut-off index
cancelAt over the successive reads of the flag: the callback only ever
sets the flag to False, so the reads are True up to some point and False
from then on.
-/

namespace Wenhua

/-- A contract record as stored in contracts.json: code is the full
contract code (合约代码), name is the product display name (品种名称). -/
structure Contract where
  code : String
  name : String
deriving DecidableEq, Repr

/-- The hotkeys section of config.ini. -/
structure Hotkeys where
  contract_list : String
  hour_chart : String
  daily_chart : String
  weekly_chart : String
deriving DecidableEq, Repr

/-- The configuration read from config.ini: the paths section and the
hotkeys section (the screenshot section of the default file is unused by
the program and is not modelled). -/
structure Config where
  wenhua_executable : String
  output_directory : String
  hotkeys : Hotkeys
deriving DecidableEq, Repr

/-- The hotkeys written by _create_default_config. -/
def defaultHotkeys : Hotkeys :=
  { contract_list := "F2", hour_chart := "F5", daily_chart := "F6", weekly_chart := "F7" }

/-- The configuration written by _create_default_config. -/
def defaultConfig : Config :=
  { wenhua_executable := "C:\\Program Files\\文华财经\\文华财经V6\\qhjy.exe",
    output_directory := "output",
    hotkeys := defaultHotkeys }

/-- _load_config: when the config file does not exist, a default config
file is created first and then read back; the Bool of the result records
whether the default file was created. -/
def load_config (configFileExists : Bool) (fileConfig : Config) : Config × Bool :=
  if configFileExists then (fileConfig, false) else (defaultConfig, true)

/-- One observable effect of the script.  press and write are pyautogui
key presses and text input; sleep is time.sleep with its argument in
seconds; grab is ImageGrab.grab with its bounding box and the path the
image is saved to; fetch is the requests.get download of the remote
spreadsheet; readCache and writeCache are reads and writes of
contracts.json; saveDoc is the save_document call; logI, logW and logE
are logger.info, logger.warning and logger.error calls. -/
inductive Ev where
  | press (key : String)
  | write (text : String)
  | sleep (seconds : Nat)
  | grab (x1 y1 x2 y2 : Nat) (path : String)
  | fetch (url : String)
  | readCache
  | writeCache
  | saveDoc
  | logI
  | logW
  | logE
deriving DecidableEq, Repr

/-- Python str.strip() with no argument: remove leading and trailing
whitespace. -/
def py_strip (s : String) : String :=
  ⟨((s.data.dropWhile Char.isWhitespace).reverse.dropWhile
      Char.isWhitespace).reverse⟩

/-- Python str.lower(), character by character. -/
def py_lower (s : String) : String :=
  ⟨s.data.map Char.toLower⟩

/-- os.path.join as used by the script (the separator is abstracted; both
capture and document generation go through this same function, so the
round-trip claims are separator-independent). -/
def joinPath (a b : String) : String := a ++ "/" ++ b

/-- The chart periods list self.periods from __init__:
['周线', '日线', '小时线'] (weekly, daily, hourly). -/
def periods : List String := ["周线", "日线", "小时线"]

/-- The key chosen by switch_period for a period label: '7' for 小时线,
'9' for 日线, '13' for 周线, and the initial empty string otherwise. -/
def period_key (period : String) : String :=
  if period = "小时线" then "7"
  else if period = "日线" then "9"
  else if period = "周线" then "13"
  else ""

/-- switch_contract: press the configured contract-list hotkey, sleep 1,
type the contract code, sleep 1, press enter, sleep 2, log success and
return True; an exception in the i-th pyautogui call (failAt = some i) is
caught, logged, and False is returned. -/
def switch_contract (cfg : Config) (failAt : Option Nat) (c : Contract) :
    Bool × List Ev :=
  match failAt with
  | none =>
      (true, [Ev.press cfg.hotkeys.contract_list, Ev.sleep 1, Ev.write c.code,
              Ev.sleep 1, Ev.press "enter", Ev.sleep 2, Ev.logI])
  | some 0 => (false, [Ev.logE])
  | some 1 => (false, [Ev.press cfg.hotkeys.contract_list, Ev.sleep 1, Ev.logE])
  | some (_ + 2) =>
      (false, [Ev.press cfg.hotkeys.contract_list, Ev.sleep 1, Ev.write c.code,
               Ev.sleep 1, Ev.logE])

/-- switch_period: type the digit string chosen by period_key, sleep 1,
press enter, sleep 2, log success and return True; an exception in the
i-th pyautogui call is caught, logged, and False is returned. -/
def switch_period (failAt : Option Nat) (period : String) : Bool × List Ev :=
  match failAt with
  | none =>
      (true, [Ev.write (period_key period), Ev.sleep 1, Ev.press "enter",
              Ev.sleep 2, Ev.logI])
  | some 0 => (false, [Ev.logE])
  | some (_ + 1) => (false, [Ev.write (period_key period), Ev.sleep 1, Ev.logE])

/-- The screenshot file name built inside take_screenshot:
f-string code_name_period.png. -/
def take_screenshot_filename (c : Contract) (period : String) : String :=
  c.code ++ "_" ++ c.name ++ "_" ++ period ++ ".png"

/-- The screenshot file name rebuilt inside save_document when probing
which images exist: the same f-string, written at the second site. -/
def save_document_filename (c : Contract) (period : String) : String :=
  c.code ++ "_" ++ c.name ++ "_" ++ period ++ ".png"

/-- take_screenshot: grab the full screen with bounding box
(0, 0, screen_width, screen_height), save it under the per-pair file name
inside the screenshots directory, log and return the path; an exception
is caught, logged, and None is returned. -/
def take_screenshot (screenshotDir : String) (w h : Nat) (fails : Bool)
    (c : Contract) (period : String) : Option String × List Ev :=
  if fails then (none, [Ev.logE])
  else
    (some (joinPath screenshotDir (take_screenshot_filename c period)),
     [Ev.grab 0 0 w h (joinPath screenshotDir (take_screenshot_filename c period)),
      Ev.logI])

/-- set_brightness: the WMI call either succeeds (logged) or raises (the
exception is caught and logged) and False is returned. -/
def set_brightness (ok : Bool) : Bool × List Ev :=
  if ok then (true, [Ev.logI]) else (false, [Ev.logE])

/-- start_wenhua: log, Popen the executable (which may raise, caught and
logged), log, sleep 15 seconds, log and return True. -/
def start_wenhua (ok : Bool) : Bool × List Ev :=
  if ok then (true, [Ev.logI, Ev.logI, Ev.sleep 15, Ev.logI])
  else (false, [Ev.logI, Ev.logE])

/-- One read of the self.running flag.  The ESC callback _on_esc_press
only ever sets the flag to False, so the successive reads are modelled by
a cut-off: with cancelAt = some n the first n reads return True and every
later read returns False; with cancelAt = none every read returns True. -/
def readRunning (cancelAt : Option Nat) (k : Nat) : Bool :=
  match cancelAt with
  | none => true
  | some n => decide (k < n)

/-- The environment a run executes in: the loaded configuration, the
screen size, the screenshots directory, the outcome oracles of the
fallible library calls, and the ESC cut-off. -/
structure Env where
  cfg : Config
  screen_width : Nat
  screen_height : Nat
  screenshot_dir : String
  brightnessOk : Bool
  startOk : Bool
  contractFail : Contract → Option Nat
  periodFail : Contract → String → Option Nat
  shotFail : Contract → String → Bool
  cancelAt : Option Nat

/-- The inner for-loop of run over the periods of one contract: check the
running flag (break when cleared), log the period, switch_period (on
failure warn and continue with the next period), sleep 3 seconds, then
take_screenshot.  The Nat argument threads the global index of the next
read of the running flag; the result pairs the emitted events with the
next read index. -/
def periodsLoop (env : Env) (c : Contract) : List String → Nat → List Ev × Nat
  | [], k => ([], k)
  | p :: rest, k =>
    if readRunning env.cancelAt k = true then
      if (switch_period (env.periodFail c p) p).1 = true then
        (Ev.logI :: (switch_period (env.periodFail c p) p).2
           ++ Ev.sleep 3
             :: (take_screenshot env.screenshot_dir env.screen_width
                   env.screen_height (env.shotFail c p) c p).2
           ++ (periodsLoop env c rest (k + 1)).1,
         (periodsLoop env c rest (k + 1)).2)
      else
        (Ev.logI :: (switch_period (env.periodFail c p) p).2
           ++ Ev.logW :: (periodsLoop env c rest (k + 1)).1,
         (periodsLoop env c rest (k + 1)).2)
    else ([], k + 1)

/-- The outer for-loop of run over the contracts: check the running flag
(log and break when cleared), log the contract, switch_contract (on
failure warn and continue with the next contract), then run the inner
loop over self.periods. -/
def contractsLoop (env : Env) : List Contract → Nat → List Ev × Nat
  | [], k => ([], k)
  | c :: rest, k =>
    if readRunning env.cancelAt k = true then
      if (switch_contract env.cfg (env.contractFail c) c).1 = true then
        (Ev.logI :: (switch_contract env.cfg (env.contractFail c) c).2
           ++ (periodsLoop env c periods (k + 1)).1
           ++ (contractsLoop env rest (periodsLoop env c periods (k + 1)).2).1,
         (contractsLoop env rest (periodsLoop env c periods (k + 1)).2).2)
      else
        (Ev.logI :: (switch_contract env.cfg (env.contractFail c) c).2
           ++ Ev.logW :: (contractsLoop env rest (k + 1)).1,
         (contractsLoop env rest (k + 1)).2)
    else ([Ev.logI], k + 1)

/-- run: set the brightness, start the application (on failure log and
return False without restoring brightness), run the contract loop, and
when the running flag is still set generate the document and log; finally
restore the brightness and return True. -/
def run (env : Env) (contracts : List Contract) : Bool × List Ev :=
  if (start_wenhua env.startOk).1 = true then
    (true,
     (set_brightness env.brightnessOk).2 ++ (start_wenhua env.startOk).2
       ++ (contractsLoop env contracts 0).1
       ++ (if readRunning env.cancelAt (contractsLoop env contracts 0).2 = true
           then [Ev.saveDoc, Ev.logI] else [])
       ++ (set_brightness env.brightnessOk).2)
  else
    (false, (set_brightness env.brightnessOk).2 ++ (start_wenhua env.startOk).2
              ++ [Ev.logE])

/-- One row of the fees.xls spreadsheet as read by get_main_contracts:
the 成交量 (volume), 品种名称 (product name) and 合约代码 (contract code)
columns. -/
structure Row where
  volume : Nat
  name : String
  code : String
deriving DecidableEq, Repr

/-- Insert a row into a list that is sorted by descending volume, keeping
it sorted. -/
def insertVolumeDesc (r : Row) : List Row → List Row
  | [] => [r]
  | x :: xs => if x.volume < r.volume then r :: x :: xs else x :: insertVolumeDesc r xs

/-- df.sort_values(by='成交量', ascending=False): sort the rows by
descending volume. -/
def sortVolumeDesc (rows : List Row) : List Row :=
  rows.foldr insertVolumeDesc []

/-- Single pass of drop_duplicates: keep a row only when its product name
has not been seen yet. -/
def dropDuplicatesByNameAux (seen : List String) : List Row → List Row
  | [] => []
  | r :: rest =>
    if r.name ∈ seen then dropDuplicatesByNameAux seen rest
    else r :: dropDuplicatesByNameAux (r.name :: seen) rest

/-- df.drop_duplicates(subset='品种名称', keep='first'): keep, for each
product name, only its first row in list order. -/
def dropDuplicatesByName (rows : List Row) : List Row :=
  dropDuplicatesByNameAux [] rows

/-- get_main_contracts on already-downloaded spreadsheet rows: sort by
descending volume, drop duplicate product names keeping the first
(highest-volume) row, keep the first top_n rows, and turn each row whose
contract code is non-empty into a contract record. -/
def get_main_contracts (top_n : Nat) (rows : List Row) : List Contract :=
  (((dropDuplicatesByName (sortVolumeDesc rows)).take top_n).filter
      (fun r => !(r.code == ""))).map (fun r => { code := r.code, name := r.name })

/-- The download URL of the fees spreadsheet. -/
def feesUrl : String := "http://www.openctp.cn/fees.xls"

/-- The built-in default contract list written when both the remote fetch
fails and no local cache exists. -/
def default_contracts : List Contract :=
  [⟨"RB", "螺纹钢"⟩, ⟨"HC", "热轧卷板"⟩, ⟨"I", "铁矿石"⟩, ⟨"J", "焦炭"⟩,
   ⟨"JM", "焦煤"⟩, ⟨"CU", "铜"⟩, ⟨"AL", "铝"⟩, ⟨"ZN", "锌"⟩, ⟨"NI", "镍"⟩,
   ⟨"SN", "锡"⟩, ⟨"AU", "黄金"⟩, ⟨"AG", "白银"⟩, ⟨"FU", "燃油"⟩, ⟨"BU", "沥青"⟩,
   ⟨"RU", "橡胶"⟩, ⟨"A", "豆一"⟩, ⟨"M", "豆粕"⟩, ⟨"Y", "豆油"⟩, ⟨"P", "棕榈油"⟩,
   ⟨"C", "玉米"⟩, ⟨"CS", "淀粉"⟩, ⟨"CF", "棉花"⟩, ⟨"SR", "白糖"⟩, ⟨"TA", "PTA"⟩,
   ⟨"MA", "甲醇"⟩]

/-- The environment _load_contracts executes in: whether contracts.json
exists, the user's answer to the update prompt, the cached list, and the
outcome of the remote fetch (none when the download, the spreadsheet
parse, or the cache write inside the try-block raises). -/
structure LoadEnv where
  cacheExists : Bool
  updateAnswer : String
  cacheContents : List Contract
  fetchRows : Option (List Row)

/-- The try/except block of _load_contracts: attempt get_main_contracts
and save the result to contracts.json; on an exception, warn, then load
the cache when it exists, and otherwise write and return the built-in
default list. -/
def try_fetch_contracts (env : LoadEnv) (top_n : Nat) : List Contract × List Ev :=
  match env.fetchRows with
  | some rows =>
      (get_main_contracts top_n rows,
       [Ev.fetch feesUrl, Ev.logI, Ev.writeCache, Ev.logI])
  | none =>
      if env.cacheExists then
        (env.cacheContents, [Ev.fetch feesUrl, Ev.logW, Ev.readCache])
      else
        (default_contracts, [Ev.fetch feesUrl, Ev.logW, Ev.writeCache, Ev.logI])

/-- _load_contracts: when contracts.json exists the user is asked whether
to update; when the lowered and stripped answer is not 'y' the cached
list is returned directly, and otherwise (as when no cache exists) the
try/except fetch block runs. -/
def load_contracts (env : LoadEnv) (top_n : Nat) : List Contract × List Ev :=
  if env.cacheExists = true ∧ py_strip (py_lower env.updateAnswer) ≠ "y" then
    (env.cacheContents, [Ev.logI, Ev.readCache])
  else try_fetch_contracts env top_n

/-- Python int() on an already-stripped string, as far as the script
needs it: an optional sign followed by decimal digits. -/
def str_to_int (s : String) : Option Int :=
  let digits : List Char → Option Nat := fun l =>
    if l.isEmpty then none
    else
      l.foldl (fun acc c =>
        match acc with
        | none => none
        | some n => if c.isDigit then some (n * 10 + (c.toNat - 48)) else none)
        (some 0)
  match s.data with
  | '-' :: rest => (digits rest).map (fun n => -(n : Int))
  | '+' :: rest => (digits rest).map (fun n => (n : Int))
  | l => (digits l).map (fun n => (n : Int))

/-- _get_top_n_input over a finite list of the lines the user types: strip
the line; an empty result returns the default 5; a line that does not
parse as an integer, or parses to a non-positive one, prints a message
and asks again; otherwise the parsed value is returned.  none means the
supplied lines ran out with no value accepted. -/
def get_top_n : List String → Option Int
  | [] => none
  | line :: rest =>
    if py_strip line = "" then some 5
    else
      match str_to_int (py_strip line) with
      | none => get_top_n rest
      | some v => if v ≤ 0 then get_top_n rest else some v

/-- The fixed opening of the generated HTML document (html_head in
save_document). -/
def html_head : String :=
  "<!DOCTYPE html>\n<html>\n<head>\n<meta charset=\"UTF-8\">\n<title>主力合约图表截图</title>\n</head>\n<body>\n<table width=\"100%\" border=\"0\">\n<tr>\n<td width=\"200\" valign=\"top\" style=\"background-color:#f0f0f0;padding:10px;\">\n<h2>品种导航</h2>\n"

/-- The fixed middle part of the generated HTML document separating the
navigation column from the content column. -/
def html_middle : String :=
  "\n</td>\n<td valign=\"top\" style=\"padding:10px;\">\n<h1 align=\"center\">主力合约图表截图</h1>\n"

/-- The fixed closing of the generated HTML document. -/
def html_foot : String :=
  "\n</td>\n</tr>\n</table>\n</body>\n</html>"

/-- The navigation link save_document appends to nav_content for one
contract. -/
def nav_entry (c : Contract) : String :=
  "<p><a href=\"#contract_" ++ c.code ++ "\">" ++ c.name ++ " (" ++ c.code
    ++ ")</a></p>\n"

/-- The opening of the per-contract section appended to main_content:
the anchored div, the heading and the row of the image table. -/
def section_open (c : Contract) : String :=
  "<div id=\"contract_" ++ c.code
    ++ "\" style=\"margin-bottom:30px;border-bottom:1px solid #ddd;padding-bottom:20px;\">\n"
    ++ "<h2>" ++ c.name ++ " (" ++ c.code ++ ")</h2>\n"
    ++ "<table width=\"100%\"><tr>\n"

/-- The closing of the per-contract section. -/
def section_close : String := "</tr></table>\n</div>\n"

/-- The image cell appended for one period whose screenshot file exists:
the heading and the img tag whose src is the document-relative path
screenshots/filename. -/
def img_entry (c : Contract) (period : String) : String :=
  "<td style=\"padding:10px;vertical-align:top;\">\n"
    ++ "<h3>" ++ period ++ "</h3>\n"
    ++ "<img src=\"" ++ joinPath "screenshots" (save_document_filename c period)
    ++ "\" alt=\"" ++ c.name ++ " " ++ period
    ++ "图表\" style=\"max-width:100%;border:1px solid #ccc;\">\n"
    ++ "</td>\n"

/-- The on-disk path save_document probes for the (contract, period)
screenshot before embedding it. -/
def save_document_probe_path (screenshotDir : String) (c : Contract)
    (period : String) : String :=
  joinPath screenshotDir (save_document_filename c period)

/-- The contract loop of save_document, transcribed as the fold the two
string accumulators nav_content and main_content go through: for each
contract append one navigation link to the first accumulator and, to the
second, the section opening, then one image cell for every period whose
screenshot file exists, then the section closing. -/
def nav_main_fold (ex : String → Bool) (screenshotDir : String)
    (cs : List Contract) : String × String :=
  cs.foldl
    (fun acc c =>
      (acc.1 ++ nav_entry c,
       (periods.foldl
           (fun m p =>
             if ex (save_document_probe_path screenshotDir c p) = true then
               m ++ img_entry c p
             else m)
           (acc.2 ++ section_open c)) ++ section_close))
    ("", "")

/-- save_document: the full HTML text written to the output file, given
the file-existence oracle for the probed screenshot paths. -/
def save_document_html (ex : String → Bool) (screenshotDir : String)
    (cs : List Contract) : String :=
  html_head ++ (nav_main_fold ex screenshotDir cs).1 ++ html_middle
    ++ (nav_main_fold ex screenshotDir cs).2 ++ html_foot

/-- Concatenation of a list of strings (used to state the structure of
the generated document). -/
def str_concat : List String → String
  | [] => ""
  | s :: rest => s ++ str_concat rest

/-- The per-contract section as the specification describes it: the
opening, one image cell per period whose screenshot file exists, in
period order, and the closing. -/
def contract_section (ex : String → Bool) (screenshotDir : String)
    (c : Contract) : String :=
  section_open c
    ++ str_concat
        ((periods.filter
            (fun p => ex (save_document_probe_path screenshotDir c p))).map
          (img_entry c))
    ++ section_close

/-- The event block the specification predicts for one (contract, period)
pair on the happy path: log the period, type the period key, fixed delay,
press enter, fixed delay, log, fixed settle delay, one full-screen grab
saved under the per-pair file name, log. -/
def expected_pair (env : Env) (c : Contract) (p : String) : List Ev :=
  [Ev.logI, Ev.write (period_key p), Ev.sleep 1, Ev.press "enter", Ev.sleep 2,
   Ev.logI, Ev.sleep 3,
   Ev.grab 0 0 env.screen_width env.screen_height
     (joinPath env.screenshot_dir (take_screenshot_filename c p)),
   Ev.logI]

/-- The event block the specification predicts for one contract on the
happy path: log the contract, press the contract-list hotkey, fixed
delay, type the code, fixed delay, press enter, fixed delay, log, then
the blocks of the three periods in the order weekly, daily, hourly. -/
def expected_contract_block (env : Env) (c : Contract) : List Ev :=
  Ev.logI :: Ev.press env.cfg.hotkeys.contract_list :: Ev.sleep 1
    :: Ev.write c.code :: Ev.sleep 1 :: Ev.press "enter" :: Ev.sleep 2
    :: Ev.logI :: (periods.map (expected_pair env c)).flatten

/-- The full event trace the specification predicts for a happy-path run:
brightness, startup, the per-contract blocks in list order, document
generation, brightness restore. -/
def expected_run (env : Env) (cs : List Contract) : List Ev :=
  (set_brightness env.brightnessOk).2 ++ (start_wenhua true).2
    ++ (cs.map (expected_contract_block env)).flatten ++ [Ev.saveDoc, Ev.logI]
    ++ (set_brightness env.brightnessOk).2

/-- Whether an event is a screen grab. -/
def is_grab : Ev → Bool
  | Ev.grab _ _ _ _ _ => true
  | _ => false

/-- Whether an event is a grab whose bounding box is anything other than
the full screen (0, 0, w, h). -/
def grab_fullscreen (w h : Nat) : Ev → Bool
  | Ev.grab x1 y1 x2 y2 _ => x1 == 0 && y1 == 0 && x2 == w && y2 == h
  | _ => true

/-- Every grab in the list is immediately preceded by the given previous
event being the 3-second settle sleep. -/
def settled_from (prev : Ev) : List Ev → Bool
  | [] => true
  | e :: rest => (!(is_grab e) || (prev == Ev.sleep 3)) && settled_from e rest

/-- Every grab in the list is immediately preceded, inside the list, by
the 3-second settle sleep. -/
def settled_ok : List Ev → Bool
  | [] => true
  | e :: rest => !(is_grab e) && settled_from e rest

/-- A sample contract record used to instantiate theorems. -/
def sampleContract : Contract := { code := "RB2405", name := "螺纹钢" }

/-- A sample happy-path environment: default configuration, no failures,
no cancellation. -/
def sampleEnv : Env :=
  { cfg := defaultConfig,
    screen_width := 1920,
    screen_height := 1080,
    screenshot_dir := "output/screenshots",
    brightnessOk := true,
    startOk := true,
    contractFail := fun _ => none,
    periodFail := fun _ _ => none,
    shotFail := fun _ _ => false,
    cancelAt := none }

/-- A sample environment in which every contract switch raises and the
ESC signal fires after the first read of the running flag. -/
def failEnv : Env :=
  { sampleEnv with contractFail := fun _ => some 0, cancelAt := some 1 }

/-- A sample set of spreadsheet rows: two rows of the same product with
different volumes and one row of another product. -/
def sampleRows : List Row :=
  [{ volume := 300, name := "螺纹钢", code := "RB2405" },
   { volume := 200, name := "螺纹钢", code := "RB2410" },
   { volume := 100, name := "铜", code := "CU2406" }]

/-- A sample loading environment in which the cache exists, the user
declines the update, and the remote fetch would have succeeded. -/
def sampleLoadEnv : LoadEnv :=
  { cacheExists := true,
    updateAnswer := "n",
    cacheContents := [sampleContract],
    fetchRows := some sampleRows }

/-- C6: the chart periods are exactly the three labels hourly (小时线),
daily (日线) and weekly (周线); switch_period chooses key 7 for hourly,
9 for daily and 13 for weekly, types it and presses enter, and returns
False exactly when one of the issued inputs raises an error. -/
theorem c6_periods_and_keys :
    periods = ["周线", "日线", "小时线"]
  ∧ (∀ p, p ∈ periods ↔ (p = "小时线" ∨ p = "日线" ∨ p = "周线"))
  ∧ period_key "小时线" = "7"
  ∧ period_key "日线" = "9"
  ∧ period_key "周线" = "13"
  ∧ (∀ f p, (switch_period f p).1 = f.isNone)
  ∧ (∀ p, (switch_period none p).2 =
      [Ev.write (period_key p), Ev.sleep 1, Ev.press "enter", Ev.sleep 2,
       Ev.logI]) := by
  refine ⟨rfl, ?_, by decide, by decide, by decide, ?_, fun p => rfl⟩
  · intro p
    simp only [periods, List.mem_cons, List.not_mem_nil, or_false]
    tauto
  · intro f p
    cases f with
    | none => rfl
    | some n =>
      cases n with
      | zero => rfl
      | succ m => rfl

/-- C9: the screenshot file name computed at the capture site equals the
file name recomputed at the document-generation site, and the path
take_screenshot saves a successful capture to is exactly the path
save_document probes for that (contract, period) pair. -/
theorem c9_filename_roundtrip :
    (∀ c p, take_screenshot_filename c p = save_document_filename c p)
  ∧ (∀ dir w h c p,
      (take_screenshot dir w h false c p).1 =
        some (save_document_probe_path dir c p)) :=
  ⟨fun _ _ => rfl, fun _ _ _ _ _ => rfl⟩

/-- C10: whenever _get_top_n_input returns a value, that value is a
positive integer; an input line that is empty after stripping returns
the default 5; in particular an empty first line returns 5. -/
theorem c10_top_n_input :
    (∀ inputs v, get_top_n inputs = some v → 0 < v)
  ∧ (∀ rest, get_top_n ("" :: rest) = some 5)
  ∧ (∀ line rest, py_strip line = "" → get_top_n (line :: rest) = some 5) := by
  refine ⟨?_, ?_, ?_⟩
  · intro inputs
    induction inputs with
    | nil => intro v h; simp [get_top_n] at h
    | cons line rest ih =>
      intro v h
      simp only [get_top_n] at h
      by_cases he : py_strip line = ""
      · rw [if_pos he] at h
        injection h with h
        omega
      · rw [if_neg he] at h
        cases hp : str_to_int (py_strip line) with
        | none => rw [hp] at h; exact ih v h
        | some w =>
          rw [hp] at h
          dsimp only at h
          by_cases hw : w ≤ 0
          · rw [if_pos hw] at h; exact ih v h
          · rw [if_neg hw] at h
            injection h with h
            omega
  · intro rest; rfl
  · intro line rest h
    simp [get_top_n, h]

/-- C10 witness: a first line 3 is accepted and is positive; an empty
first line yields 5. -/
theorem c10_top_n_input_witness :
    ((0 : Int) < 3) ∧ get_top_n [" "] = some 5 :=
  ⟨c10_top_n_input.1 ["3"] 3 (by decide),
   c10_top_n_input.2.2 " " [] (by decide)⟩

/-- C7 counterexample: in a happy-path run over one contract with the
default configuration, all three periods are selected (the hardcoded
digit strings 7, 9 and 13 are typed) yet the configured hour, daily and
weekly chart hotkeys F5, F6 and F7 are never pressed nor typed; only the
contract-list hotkey of the configuration is pressed. -/
theorem c7_counterexample :
    Ev.write "7" ∈ (run sampleEnv [sampleContract]).2
  ∧ Ev.write "9" ∈ (run sampleEnv [sampleContract]).2
  ∧ Ev.write "13" ∈ (run sampleEnv [sampleContract]).2
  ∧ Ev.press defaultConfig.hotkeys.contract_list ∈ (run sampleEnv [sampleContract]).2
  ∧ Ev.press defaultConfig.hotkeys.hour_chart ∉ (run sampleEnv [sampleContract]).2
  ∧ Ev.write defaultConfig.hotkeys.hour_chart ∉ (run sampleEnv [sampleContract]).2
  ∧ Ev.press defaultConfig.hotkeys.daily_chart ∉ (run sampleEnv [sampleContract]).2
  ∧ Ev.write defaultConfig.hotkeys.daily_chart ∉ (run sampleEnv [sampleContract]).2
  ∧ Ev.press defaultConfig.hotkeys.weekly_chart ∉ (run sampleEnv [sampleContract]).2
  ∧ Ev.write defaultConfig.hotkeys.weekly_chart ∉ (run sampleEnv [sampleContract]).2 := by
  decide

/-- C7 (amended): the program reads its configuration of paths and
hotkeys from the config file and creates the default one when none
exists; the configured contract-list hotkey is the first key
switch_contract presses whenever it issues any input at all; but the
configured hour, daily and weekly chart hotkeys are unused by the
program: switch_period only ever presses enter and only ever types the
hardcoded digit string chosen by period_key. -/
theorem c7_config_hotkeys :
    (∀ fileCfg, load_config false fileCfg = (defaultConfig, true))
  ∧ (∀ fileCfg, load_config true fileCfg = (fileCfg, false))
  ∧ defaultConfig.hotkeys =
      { contract_list := "F2", hour_chart := "F5", daily_chart := "F6",
        weekly_chart := "F7" }
  ∧ (∀ cfg f c,
      (switch_contract cfg f c).2.head? = some (Ev.press cfg.hotkeys.contract_list)
      ∨ (switch_contract cfg f c).2 = [Ev.logE])
  ∧ (∀ f p k, Ev.press k ∈ (switch_period f p).2 → k = "enter")
  ∧ (∀ f p t, Ev.write t ∈ (switch_period f p).2 → t = period_key p) := by
  refine ⟨fun _ => rfl, fun _ => rfl, rfl, ?_, ?_, ?_⟩
  · intro cfg f c
    rcases f with _ | (_ | (_ | n))
    · exact Or.inl rfl
    · exact Or.inr rfl
    · exact Or.inl rfl
    · exact Or.inl rfl
  · intro f p k h
    rcases f with _ | (_ | n) <;> simp_all [switch_period]
  · intro f p t h
    rcases f with _ | (_ | n) <;> simp_all [switch_period]

/-- C3 counterexample: when the local cache exists and the user declines
the update, the cached list is returned and no remote fetch is attempted,
even though the remote fetch would have succeeded; so the program does
not always try the remote spreadsheet first. -/
theorem c3_counterexample :
    (load_contracts sampleLoadEnv 5).2 = [Ev.logI, Ev.readCache]
  ∧ Ev.fetch feesUrl ∉ (load_contracts sampleLoadEnv 5).2
  ∧ (load_contracts sampleLoadEnv 5).1 = sampleLoadEnv.cacheContents
  ∧ sampleLoadEnv.cacheExists = true
  ∧ sampleLoadEnv.fetchRows.isSome = true := by
  decide

/-- C3 (amended): when the cache file exists and the user declines the
update, the cached list is returned without any remote attempt; in every
other case the program first tries the remote fetch, and on failure falls
back to the local cache when it exists and otherwise to the built-in
default list; in every case the result is a list of contract records. -/
theorem c3_fallback_chain (env : LoadEnv) (n : Nat) :
    (env.cacheExists = true → py_strip (py_lower env.updateAnswer) ≠ "y" →
       load_contracts env n = (env.cacheContents, [Ev.logI, Ev.readCache]))
  ∧ (∀ rows, env.fetchRows = some rows →
       (env.cacheExists = false ∨ py_strip (py_lower env.updateAnswer) = "y") →
       load_contracts env n =
         (get_main_contracts n rows,
          [Ev.fetch feesUrl, Ev.logI, Ev.writeCache, Ev.logI]))
  ∧ (env.fetchRows = none → env.cacheExists = true →
       py_strip (py_lower env.updateAnswer) = "y" →
       load_contracts env n =
         (env.cacheContents, [Ev.fetch feesUrl, Ev.logW, Ev.readCache]))
  ∧ (env.fetchRows = none → env.cacheExists = false →
       load_contracts env n =
         (default_contracts,
          [Ev.fetch feesUrl, Ev.logW, Ev.writeCache, Ev.logI])) := by
  refine ⟨?_, ?_, ?_, ?_⟩
  · intro hc hy
    simp [load_contracts, hc, hy]
  · intro rows hr hd
    rcases hd with hd | hd
    · simp [load_contracts, hd, try_fetch_contracts, hr]
    · simp [load_contracts, hd, try_fetch_contracts, hr]
  · intro hr hc hy
    simp [load_contracts, hc, hy, try_fetch_contracts, hr]
  · intro hr hc
    simp [load_contracts, hc, try_fetch_contracts, hr]

/-- C3 witness: with the sample loading environment the decline branch of
the amended fallback chain fires at a concrete input. -/
theorem c3_fallback_chain_witness :
    load_contracts sampleLoadEnv 5 =
      (sampleLoadEnv.cacheContents, [Ev.logI, Ev.readCache]) :=
  (c3_fallback_chain sampleLoadEnv 5).1 rfl (by decide)

/-- Membership in an insertion step of the volume sort. -/
theorem mem_insertVolumeDesc {a r : Row} {l : List Row} :
    a ∈ insertVolumeDesc r l ↔ (a = r ∨ a ∈ l) := by
  induction l with
  | nil => simp [insertVolumeDesc]
  | cons x xs ih =>
    simp only [insertVolumeDesc]
    by_cases h : x.volume < r.volume
    · simp only [if_pos h, List.mem_cons]
    · simp only [if_neg h, List.mem_cons, ih]
      tauto

/-- An insertion step of the volume sort is a permutation step. -/
theorem insertVolumeDesc_perm (r : Row) (l : List Row) :
    List.Perm (insertVolumeDesc r l) (r :: l) := by
  induction l with
  | nil => exact List.Perm.refl _
  | cons x xs ih =>
    simp only [insertVolumeDesc]
    by_cases h : x.volume < r.volume
    · rw [if_pos h]
    · rw [if_neg h]
      exact (ih.cons x).trans (List.Perm.swap r x xs)

/-- sortVolumeDesc is a permutation of its input. -/
theorem sortVolumeDesc_perm (rows : List Row) :
    List.Perm (sortVolumeDesc rows) rows := by
  induction rows with
  | nil => exact List.Perm.refl _
  | cons x xs ih =>
    simp only [sortVolumeDesc, List.foldr_cons]
    exact (insertVolumeDesc_perm x _).trans (ih.cons x)

/-- Insertion preserves the sorted-by-descending-volume invariant. -/
theorem pairwise_insertVolumeDesc {r : Row} {l : List Row}
    (hp : List.Pairwise (fun a b => b.volume ≤ a.volume) l) :
    List.Pairwise (fun a b => b.volume ≤ a.volume) (insertVolumeDesc r l) := by
  induction l with
  | nil => simp [insertVolumeDesc]
  | cons x xs ih =>
    rw [List.pairwise_cons] at hp
    obtain ⟨hx, hxs⟩ := hp
    simp only [insertVolumeDesc]
    by_cases h : x.volume < r.volume
    · rw [if_pos h]
      refine List.Pairwise.cons ?_ (List.Pairwise.cons hx hxs)
      intro y hy
      rcases List.mem_cons.mp hy with rfl | hy
      · exact Nat.le_of_lt h
      · exact Nat.le_trans (hx y hy) (Nat.le_of_lt h)
    · rw [if_neg h]
      refine List.Pairwise.cons ?_ (ih hxs)
      intro y hy
      rcases mem_insertVolumeDesc.mp hy with rfl | hy
      · exact Nat.le_of_not_lt h
      · exact hx y hy

/-- sortVolumeDesc sorts by descending volume. -/
theorem sortVolumeDesc_pairwise (rows : List Row) :
    List.Pairwise (fun a b => b.volume ≤ a.volume) (sortVolumeDesc rows) := by
  induction rows with
  | nil => simp [sortVolumeDesc]
  | cons x xs ih =>
    simp only [sortVolumeDesc, List.foldr_cons]
    exact pairwise_insertVolumeDesc ih

/-- Deduplication only keeps rows of the input. -/
theorem mem_of_mem_dropDuplicatesByNameAux :
    ∀ {l : List Row} {seen : List String} {a : Row},
      a ∈ dropDuplicatesByNameAux seen l → a ∈ l := by
  intro l
  induction l with
  | nil => intro seen a h; simp [dropDuplicatesByNameAux] at h
  | cons r rest ih =>
    intro seen a h
    simp only [dropDuplicatesByNameAux] at h
    by_cases hs : r.name ∈ seen
    · rw [if_pos hs] at h
      exact List.mem_cons_of_mem r (ih h)
    · rw [if_neg hs] at h
      rcases List.mem_cons.mp h with rfl | h
      · exact List.mem_cons_self _ _
      · exact List.mem_cons_of_mem r (ih h)

/-- A row kept by deduplication has a name outside the seen set. -/
theorem name_not_seen_of_mem_dropDuplicatesByNameAux :
    ∀ {l : List Row} {seen : List String} {a : Row},
      a ∈ dropDuplicatesByNameAux seen l → a.name ∉ seen := by
  intro l
  induction l with
  | nil => intro seen a h; simp [dropDuplicatesByNameAux] at h
  | cons r rest ih =>
    intro seen a h
    simp only [dropDuplicatesByNameAux] at h
    by_cases hs : r.name ∈ seen
    · rw [if_pos hs] at h; exact ih h
    · rw [if_neg hs] at h
      rcases List.mem_cons.mp h with rfl | h
      · exact hs
      · intro hmem
        exact ih h (List.mem_cons_of_mem _ hmem)

/-- Deduplication produces pairwise distinct product names. -/
theorem pairwise_names_dropDuplicatesByNameAux :
    ∀ (l : List Row) (seen : List String),
      List.Pairwise (fun a b => a.name ≠ b.name)
        (dropDuplicatesByNameAux seen l) := by
  intro l
  induction l with
  | nil => intro seen; simp [dropDuplicatesByNameAux]
  | cons r rest ih =>
    intro seen
    simp only [dropDuplicatesByNameAux]
    by_cases hs : r.name ∈ seen
    · rw [if_pos hs]; exact ih seen
    · rw [if_neg hs]
      refine List.Pairwise.cons ?_ (ih _)
      intro y hy hEq
      apply name_not_seen_of_mem_dropDuplicatesByNameAux hy
      rw [← hEq]
      exact List.mem_cons_self _ _

/-- On a descending-volume list, deduplication keeps, for each name, a
row of maximal volume among the rows of that name. -/
theorem keeps_max_dropDuplicatesByNameAux :
    ∀ {l : List Row} {seen : List String},
      List.Pairwise (fun a b => b.volume ≤ a.volume) l →
      ∀ {a : Row}, a ∈ dropDuplicatesByNameAux seen l →
      ∀ {x : Row}, x ∈ l → x.name = a.name → x.volume ≤ a.volume := by
  intro l
  induction l with
  | nil => intro seen _ a h; simp [dropDuplicatesByNameAux] at h
  | cons r rest ih =>
    intro seen hp a ha x hx hname
    rw [List.pairwise_cons] at hp
    obtain ⟨hr, hrest⟩ := hp
    simp only [dropDuplicatesByNameAux] at ha
    by_cases hs : r.name ∈ seen
    · rw [if_pos hs] at ha
      rcases List.mem_cons.mp hx with rfl | hx
      · have hns := name_not_seen_of_mem_dropDuplicatesByNameAux ha
        rw [hname] at hs
        exact absurd hs hns
      · exact ih hrest ha hx hname
    · rw [if_neg hs] at ha
      rcases List.mem_cons.mp ha with rfl | ha
      · rcases List.mem_cons.mp hx with rfl | hx
        · exact Nat.le_refl _
        · exact hr x hx
      · rcases List.mem_cons.mp hx with rfl | hx
        · exfalso
          apply name_not_seen_of_mem_dropDuplicatesByNameAux ha
          rw [← hname]
          exact List.mem_cons_self _ _
        · exact ih hrest ha hx hname

/-- C8: on a successful remote fetch, get_main_contracts returns at most
top_n records; every returned record has a non-empty contract code; the
returned records have pairwise distinct product names; and each returned
record comes from a spreadsheet row of maximal volume among the rows of
its product name. -/
theorem c8_main_contracts (n : Nat) (rows : List Row) :
    (get_main_contracts n rows).length ≤ n
  ∧ (∀ c ∈ get_main_contracts n rows, c.code ≠ "")
  ∧ List.Pairwise (fun a b => a.name ≠ b.name) (get_main_contracts n rows)
  ∧ (∀ c ∈ get_main_contracts n rows, ∃ r ∈ rows,
      r.code = c.code ∧ r.name = c.name ∧
      ∀ x ∈ rows, x.name = r.name → x.volume ≤ r.volume) := by
  refine ⟨?_, ?_, ?_, ?_⟩
  · simp only [get_main_contracts, List.length_map]
    calc (List.filter _
          (List.take n (dropDuplicatesByName (sortVolumeDesc rows)))).length
        ≤ (List.take n (dropDuplicatesByName (sortVolumeDesc rows))).length :=
          List.length_filter_le _ _
      _ ≤ n := by
          rw [List.length_take]
          exact Nat.min_le_left _ _
  · intro c hc
    simp only [get_main_contracts, List.mem_map] at hc
    obtain ⟨r, hr, rfl⟩ := hc
    have hcode := List.of_mem_filter hr
    simpa using hcode
  · simp only [get_main_contracts, List.pairwise_map]
    have hsub :
        List.Sublist
          (List.filter (fun r => !(r.code == ""))
            (List.take n (dropDuplicatesByName (sortVolumeDesc rows))))
          (dropDuplicatesByName (sortVolumeDesc rows)) :=
      (List.filter_sublist _).trans (List.take_sublist _ _)
    exact (pairwise_names_dropDuplicatesByNameAux (sortVolumeDesc rows) []).sublist
      hsub
  · intro c hc
    simp only [get_main_contracts, List.mem_map] at hc
    obtain ⟨r, hr, rfl⟩ := hc
    have hdd : r ∈ dropDuplicatesByName (sortVolumeDesc rows) :=
      List.mem_of_mem_take (List.mem_of_mem_filter hr)
    have hsorted : r ∈ sortVolumeDesc rows :=
      mem_of_mem_dropDuplicatesByNameAux hdd
    refine ⟨r, (sortVolumeDesc_perm rows).mem_iff.mp hsorted, rfl, rfl, ?_⟩
    intro x hx hname
    exact keeps_max_dropDuplicatesByNameAux (sortVolumeDesc_pairwise rows) hdd
      ((sortVolumeDesc_perm rows).mem_iff.mpr hx) hname

/-- C8 witness: on the sample rows with top_n = 2, the two returned
records are the maximal-volume rows of their product names and the first
one has a non-empty code. -/
theorem c8_main_contracts_witness :
    (Contract.mk "RB2405" "螺纹钢").code ≠ ""
  ∧ get_main_contracts 2 sampleRows =
      [{ code := "RB2405", name := "螺纹钢" }, { code := "CU2406", name := "铜" }] :=
  ⟨(c8_main_contracts 2 sampleRows).2.1 ⟨"RB2405", "螺纹钢"⟩ (by decide), by decide⟩

/-- A left fold that appends a string for each element passing a test
equals the initial accumulator followed by the concatenation over the
filtered list. -/
theorem foldl_filter_append {α : Type} (cond : α → Bool) (f : α → String) :
    ∀ (l : List α) (init : String),
      l.foldl (fun m x => if cond x = true then m ++ f x else m) init
        = init ++ str_concat ((l.filter cond).map f) := by
  intro l
  induction l with
  | nil => intro init; simp [str_concat, String.append_empty]
  | cons x xs ih =>
    intro init
    by_cases hx : cond x = true
    · rw [List.foldl_cons, if_pos hx, ih, List.filter_cons_of_pos hx,
        List.map_cons]
      show init ++ f x ++ str_concat _ = init ++ (f x ++ str_concat _)
      rw [String.append_assoc]
    · rw [List.foldl_cons, if_neg hx, ih, List.filter_cons_of_neg hx]

/-- The contract fold of save_document, from any pair of accumulators,
appends one navigation entry and one section per contract. -/
theorem nav_main_fold_eq (ex : String → Bool) (dir : String) :
    ∀ (cs : List Contract) (a b : String),
      cs.foldl
        (fun acc c =>
          (acc.1 ++ nav_entry c,
           (periods.foldl
               (fun m p =>
                 if ex (save_document_probe_path dir c p) = true then
                   m ++ img_entry c p
                 else m)
               (acc.2 ++ section_open c)) ++ section_close))
        (a, b)
      = (a ++ str_concat (cs.map nav_entry),
         b ++ str_concat (cs.map (contract_section ex dir))) := by
  intro cs
  induction cs with
  | nil => intro a b; simp [str_concat, String.append_empty]
  | cons c cs ih =>
    intro a b
    rw [List.foldl_cons, foldl_filter_append, ih]
    simp [contract_section, str_concat, String.append_assoc]

/-- C4: the generated document is the fixed HTML frame around, in list
order, one navigation link per contract and one section per contract,
where the section of a contract is its opening, one image cell for each
period whose screenshot file exists on disk (in period order), and its
closing. -/
theorem c4_document_structure (ex : String → Bool) (dir : String)
    (cs : List Contract) :
    save_document_html ex dir cs =
      html_head ++ str_concat (cs.map nav_entry) ++ html_middle
        ++ str_concat (cs.map (contract_section ex dir)) ++ html_foot
  ∧ (∀ c, contract_section ex dir c =
      section_open c
        ++ str_concat
            ((periods.filter
                (fun p => ex (save_document_probe_path dir c p))).map
              (img_entry c))
        ++ section_close) := by
  constructor
  · simp only [save_document_html, nav_main_fold]
    rw [nav_main_fold_eq]
    simp [String.empty_append]
  · intro c; rfl

/-- C2: a failed contract switch is logged and the loop continues with
the next contract; a failed period switch is logged and the loop
continues with the next period; a failed screenshot is logged and the
loop continues; once the ESC cancellation signal has fired, the next
read of the running flag stops the loop and no further contract or
period is processed, and with the signal fired from the start the whole
run performs no capture and generates no document. -/
theorem c2_error_handling (env : Env) :
    (∀ c rest k, readRunning env.cancelAt k = true →
        (switch_contract env.cfg (env.contractFail c) c).1 = false →
        contractsLoop env (c :: rest) k =
          (Ev.logI :: (switch_contract env.cfg (env.contractFail c) c).2
             ++ Ev.logW :: (contractsLoop env rest (k + 1)).1,
           (contractsLoop env rest (k + 1)).2))
  ∧ (∀ c p rest k, readRunning env.cancelAt k = true →
        (switch_period (env.periodFail c p) p).1 = false →
        periodsLoop env c (p :: rest) k =
          (Ev.logI :: (switch_period (env.periodFail c p) p).2
             ++ Ev.logW :: (periodsLoop env c rest (k + 1)).1,
           (periodsLoop env c rest (k + 1)).2))
  ∧ (∀ c p rest k, readRunning env.cancelAt k = true →
        (switch_period (env.periodFail c p) p).1 = true →
        env.shotFail c p = true →
        periodsLoop env c (p :: rest) k =
          (Ev.logI :: (switch_period (env.periodFail c p) p).2
             ++ Ev.sleep 3 :: Ev.logE :: (periodsLoop env c rest (k + 1)).1,
           (periodsLoop env c rest (k + 1)).2))
  ∧ (∀ n c cs k, env.cancelAt = some n → n ≤ k →
        contractsLoop env (c :: cs) k = ([Ev.logI], k + 1))
  ∧ (∀ n c p ps k, env.cancelAt = some n → n ≤ k →
        periodsLoop env c (p :: ps) k = ([], k + 1))
  ∧ (∀ cs, env.cancelAt = some 0 →
        ((run env cs).2.all
          (fun e => !(is_grab e) && !(e == Ev.saveDoc))) = true) := by
  refine ⟨?_, ?_, ?_, ?_, ?_, ?_⟩
  · intro c rest k h hf
    simp [contractsLoop, h, hf]
  · intro c p rest k h hf
    simp [periodsLoop, h, hf]
  · intro c p rest k h ht hshot
    simp [periodsLoop, h, ht, hshot, take_screenshot]
  · intro n c cs k hc hk
    have hr : readRunning env.cancelAt k = false := by
      simp [readRunning, hc]
      omega
    simp [contractsLoop, hr]
  · intro n c p ps k hc hk
    have hr : readRunning env.cancelAt k = false := by
      simp [readRunning, hc]
      omega
    simp [periodsLoop, hr]
  · intro cs hc
    rcases cs with _ | ⟨c, cs⟩ <;> cases hb : env.brightnessOk <;>
        cases hst : env.startOk <;>
      simp [run, contractsLoop, readRunning, hc, hb, hst, set_brightness,
        start_wenhua, is_grab]

/-- C2 witness: with every contract switch raising and the signal firing
after the first flag read, the first contract is skipped with a warning
and the loop proceeds to the rest of the list. -/
theorem c2_error_handling_witness :
    contractsLoop failEnv [sampleContract] 0 =
      (Ev.logI
         :: (switch_contract failEnv.cfg (failEnv.contractFail sampleContract)
              sampleContract).2
         ++ Ev.logW :: (contractsLoop failEnv [] 1).1,
       (contractsLoop failEnv [] 1).2) :=
  (c2_error_handling failEnv).1 sampleContract [] 0 (by decide) (by decide)

/-- On the happy path the inner loop emits, for each period in order,
exactly the expected block, and performs one flag read per period. -/
theorem happy_periodsLoop (env : Env) (c : Contract)
    (hcancel : env.cancelAt = none)
    (hp : ∀ p, env.periodFail c p = none)
    (hs : ∀ p, env.shotFail c p = false) :
    ∀ (ps : List String) (k : Nat),
      periodsLoop env c ps k =
        ((ps.map (expected_pair env c)).flatten, k + ps.length) := by
  intro ps
  induction ps with
  | nil => intro k; rfl
  | cons p rest ih =>
    intro k
    have hr : readRunning env.cancelAt k = true := by simp [readRunning, hcancel]
    rw [Prod.ext_iff]
    constructor
    · simp [periodsLoop, hr, hp p, hs p, switch_period, take_screenshot, ih,
        expected_pair]
    · simp [periodsLoop, hr, hp p, hs p, switch_period, take_screenshot, ih]
      omega

/-- On the happy path the outer loop emits, for each contract in list
order, exactly the expected block, and performs four flag reads per
contract. -/
theorem happy_contractsLoop (env : Env)
    (hcancel : env.cancelAt = none)
    (hc : ∀ c, env.contractFail c = none)
    (hp : ∀ c p, env.periodFail c p = none)
    (hs : ∀ c p, env.shotFail c p = false) :
    ∀ (cs : List Contract) (k : Nat),
      contractsLoop env cs k =
        ((cs.map (expected_contract_block env)).flatten, k + 4 * cs.length) := by
  intro cs
  induction cs with
  | nil => intro k; rfl
  | cons c cs ih =>
    intro k
    have hr : readRunning env.cancelAt k = true := by simp [readRunning, hcancel]
    have hpl := happy_periodsLoop env c hcancel (hp c) (hs c) periods (k + 1)
    have hpl2 := hpl
    simp only [periods] at hpl2
    rw [Prod.ext_iff]
    constructor
    · simp [contractsLoop, hr, hc c, switch_contract, hpl, ih,
        expected_contract_block]
    · simp [contractsLoop, hr, hc c, switch_contract, hpl, hpl2, ih, periods]
      omega

/-- C1: on a run with no cancellation and no failing library call, the
trace is exactly, after startup, one block per contract in list order,
each consisting of the contract-selection keystrokes with their fixed
delays followed by, for each of the three periods in the order weekly,
daily, hourly, the period-selection keystrokes with their fixed delays,
the settle delay, and exactly one screen capture for that (contract,
period) pair; the document is generated at the end. -/
theorem c1_run_iteration (env : Env) (cs : List Contract)
    (hcancel : env.cancelAt = none) (hstart : env.startOk = true)
    (hc : ∀ c, env.contractFail c = none)
    (hp : ∀ c p, env.periodFail c p = none)
    (hs : ∀ c p, env.shotFail c p = false) :
    run env cs = (true, expected_run env cs) := by
  have hloop := happy_contractsLoop env hcancel hc hp hs cs 0
  have hr : ∀ k, readRunning env.cancelAt k = true := by
    intro k
    simp [readRunning, hcancel]
  simp [run, hstart, hloop, hr, expected_run, start_wenhua]

/-- C1 witness: the happy-path trace at a concrete one-contract run. -/
theorem c1_run_iteration_witness :
    run sampleEnv [sampleContract] =
      (true, expected_run sampleEnv [sampleContract]) :=
  c1_run_iteration sampleEnv [sampleContract] rfl rfl (fun _ => rfl)
    (fun _ _ => rfl) (fun _ _ => rfl)

/-- A non-grab event satisfies the fullscreen-bounding-box property. -/
theorem grab_fullscreen_of_not_grab {w h : Nat} {e : Ev}
    (he : is_grab e = false) : grab_fullscreen w h e = true := by
  cases e <;> simp_all [is_grab, grab_fullscreen]

/-- The grab of take_screenshot itself satisfies the property. -/
theorem grab_fullscreen_self (w h : Nat) (s : String) :
    grab_fullscreen w h (Ev.grab 0 0 w h s) = true := by
  simp [grab_fullscreen]

/-- switch_contract emits no grab event. -/
theorem all_not_grab_switch_contract (cfg : Config) (f : Option Nat)
    (c : Contract) :
    ((switch_contract cfg f c).2.all fun e => !(is_grab e)) = true := by
  rcases f with _ | (_ | (_ | n)) <;> simp [switch_contract, is_grab]

/-- switch_period emits no grab event. -/
theorem all_not_grab_switch_period (f : Option Nat) (p : String) :
    ((switch_period f p).2.all fun e => !(is_grab e)) = true := by
  rcases f with _ | (_ | n) <;> simp [switch_period, is_grab]

/-- Every event of a contract switch satisfies the fullscreen property. -/
theorem fullscreen_switch_contract {w h : Nat} {cfg : Config}
    {f : Option Nat} {c : Contract} :
    ∀ x ∈ (switch_contract cfg f c).2, grab_fullscreen w h x = true := by
  have hng := all_not_grab_switch_contract cfg f c
  rw [List.all_eq_true] at hng
  intro x hx
  exact grab_fullscreen_of_not_grab (by simpa using hng x hx)

/-- Every event of a period switch satisfies the fullscreen property. -/
theorem fullscreen_switch_period {w h : Nat} {f : Option Nat} {p : String} :
    ∀ x ∈ (switch_period f p).2, grab_fullscreen w h x = true := by
  have hng := all_not_grab_switch_period f p
  rw [List.all_eq_true] at hng
  intro x hx
  exact grab_fullscreen_of_not_grab (by simpa using hng x hx)

/-- Every grab the inner loop emits has the full-screen bounding box. -/
theorem fullscreen_periodsLoop (env : Env) (c : Contract) :
    ∀ (ps : List String) (k : Nat),
      ((periodsLoop env c ps k).1.all
        (grab_fullscreen env.screen_width env.screen_height)) = true := by
  intro ps
  induction ps with
  | nil => intro k; rfl
  | cons p rest ih =>
    intro k
    by_cases hr : readRunning env.cancelAt k = true
    · by_cases hsw : (switch_period (env.periodFail c p) p).1 = true
      · cases hshot : env.shotFail c p <;>
          simp [periodsLoop, hr, hsw, hshot, take_screenshot, ih,
            List.all_append, grab_fullscreen_self,
            grab_fullscreen_of_not_grab, is_grab]
        all_goals exact fullscreen_switch_period
      · simp [periodsLoop, hr, hsw, ih, List.all_append,
          grab_fullscreen_of_not_grab, is_grab]
        exact fullscreen_switch_period
    · simp [periodsLoop, hr]

/-- Every grab the outer loop emits has the full-screen bounding box. -/
theorem fullscreen_contractsLoop (env : Env) :
    ∀ (cs : List Contract) (k : Nat),
      ((contractsLoop env cs k).1.all
        (grab_fullscreen env.screen_width env.screen_height)) = true := by
  intro cs
  induction cs with
  | nil => intro k; rfl
  | cons c rest ih =>
    intro k
    by_cases hr : readRunning env.cancelAt k = true
    · by_cases hsw : (switch_contract env.cfg (env.contractFail c) c).1 = true
      · simp [contractsLoop, hr, hsw, List.all_append, ih,
          fullscreen_periodsLoop, grab_fullscreen_of_not_grab, is_grab]
        exact fullscreen_switch_contract
      · simp [contractsLoop, hr, hsw, List.all_append, ih,
          grab_fullscreen_of_not_grab, is_grab]
        exact fullscreen_switch_contract
    · simp [contractsLoop, hr, grab_fullscreen_of_not_grab, is_grab]

/-- Splitting the settle check over an append. -/
theorem settled_from_append (p : Ev) (xs ys : List Ev) :
    settled_from p (xs ++ ys)
      = (settled_from p xs && settled_from (xs.getLastD p) ys) := by
  induction xs generalizing p with
  | nil => simp [settled_from, List.getLastD]
  | cons x xs ih =>
    simp only [List.cons_append, settled_from, List.append_eq, ih x,
      List.getLastD_cons, Bool.and_assoc]

/-- A grab-free list passes the settle check from any previous event. -/
theorem settled_from_of_not_grab {prev : Ev} {l : List Ev}
    (h : (l.all fun e => !(is_grab e)) = true) : settled_from prev l = true := by
  induction l generalizing prev with
  | nil => rfl
  | cons x xs ih =>
    simp only [List.all_cons, Bool.and_eq_true] at h
    simp [settled_from, h.1, ih h.2]

/-- In the inner loop trace every grab is immediately preceded by the
3-second settle delay, whatever event precedes the trace. -/
theorem settled_periodsLoop (env : Env) (c : Contract) :
    ∀ (ps : List String) (k : Nat) (prev : Ev),
      settled_from prev (periodsLoop env c ps k).1 = true := by
  intro ps
  induction ps with
  | nil => intro k prev; rfl
  | cons p rest ih =>
    intro k prev
    by_cases hr : readRunning env.cancelAt k = true
    · by_cases hsw : (switch_period (env.periodFail c p) p).1 = true
      · rcases hf : env.periodFail c p with _ | n
        · cases hshot : env.shotFail c p <;>
            simp [periodsLoop, hr, hsw, hf, hshot, switch_period,
              take_screenshot, settled_from, is_grab, ih]
        · rw [hf] at hsw
          rcases n with _ | n <;> simp [switch_period] at hsw
      · rcases hf : env.periodFail c p with _ | n
        · rw [hf] at hsw
          simp [switch_period] at hsw
        · rcases n with _ | n <;>
            simp [periodsLoop, hr, hsw, hf, switch_period, settled_from,
              is_grab, ih]
    · simp [periodsLoop, hr, settled_from]

/-- In the outer loop trace every grab is immediately preceded by the
3-second settle delay, whatever event precedes the trace. -/
theorem settled_contractsLoop (env : Env) :
    ∀ (cs : List Contract) (k : Nat) (prev : Ev),
      settled_from prev (contractsLoop env cs k).1 = true := by
  intro cs
  induction cs with
  | nil => intro k prev; rfl
  | cons c rest ih =>
    intro k prev
    by_cases hr : readRunning env.cancelAt k = true
    · by_cases hsw : (switch_contract env.cfg (env.contractFail c) c).1 = true
      · simp [contractsLoop, hr, hsw, settled_from, is_grab,
          settled_from_append, ih, settled_periodsLoop,
          settled_from_of_not_grab
            (all_not_grab_switch_contract env.cfg (env.contractFail c) c)]
      · simp [contractsLoop, hr, hsw, settled_from, is_grab,
          settled_from_append, ih,
          settled_from_of_not_grab
            (all_not_grab_switch_contract env.cfg (env.contractFail c) c)]
    · simp [contractsLoop, hr, settled_from, is_grab]

/-- The head check of settled_ok is the settle check seeded with any
non-sleep event. -/
theorem settled_ok_eq_from (l : List Ev) :
    settled_ok l = settled_from Ev.logW l := by
  have hne : (Ev.logW == Ev.sleep 3) = false := by decide
  cases l <;> simp [settled_ok, settled_from, hne]

/-- C5: in every run, every screen grab spans the whole screen from
(0, 0) to (screen_width, screen_height), and every grab in the trace is
taken immediately after the fixed 3-second settle delay that follows the
period switch. -/
theorem c5_fullscreen_settled (env : Env) (cs : List Contract) :
    ((run env cs).2.all
      (grab_fullscreen env.screen_width env.screen_height)) = true
  ∧ settled_ok (run env cs).2 = true := by
  constructor
  · cases hst : env.startOk <;> cases hb : env.brightnessOk <;>
      by_cases hfin :
          readRunning env.cancelAt (contractsLoop env cs 0).2 = true <;>
      simp [run, hst, hb, hfin, set_brightness, start_wenhua, List.all_append,
        fullscreen_contractsLoop, grab_fullscreen]
  · rw [settled_ok_eq_from]
    cases hst : env.startOk <;> cases hb : env.brightnessOk <;>
      by_cases hfin :
          readRunning env.cancelAt (contractsLoop env cs 0).2 = true <;>
      simp [run, hst, hb, hfin, set_brightness, start_wenhua,
        settled_from_append, settled_from, is_grab, settled_contractsLoop]

end Wenhua
